import Mathlib

/-!
Verification of the combat core of a hex-grid dungeon crawler:
the health model (`src/actor/health.rs`), the attack resolver
(`src/actor/attack.rs`) and the turn scheduler / combat state machine
(`src/game/combat.rs`), shallowly embedded as executable Lean functions.
-/

namespace HexGame

/-- Largest value of a `u32`. -/
def U32_MAX : Nat := 2 ^ 32 - 1

/-- `u32::saturating_add`. -/
def satAdd (a b : Nat) : Nat := min (a + b) U32_MAX

/-- `NonZero::<u32>::new`: `some x` exactly when `x` is positive. -/
def nzNew (x : Nat) : Option Nat := if x = 0 then none else some x

/-- The health of an actor (`Health` in `src/actor/health.rs`).
`current = none` means the actor is dead; the Rust field is
`Option<NonZero<u32>>`, so a present value is never zero. -/
structure Health where
  current : Option Nat
  max : Nat
deriving DecidableEq, Repr

/-- `Health::new`: current health set to the max. -/
def Health.new (max : Nat) : Health := { current := some max, max := max }

/-- `Health::with_current`. -/
def Health.with_current (current : Option Nat) (max : Nat) : Health :=
  { current := current, max := max }

/-- `Health::is_alive`. -/
def Health.is_alive (h : Health) : Bool := h.current.isSome

/-- `Health::heal`: heals the actor if they are not already dead;
adds `amount` with `u32` saturation, capped at `max`. A zero amount is
a no-op (the `NonZero::new` guard returns early). -/
def Health.heal (h : Health) (amount : Nat) : Health :=
  if amount = 0 then h else
  match h.current with
  | none => h
  | some curr => { h with current := some (min (satAdd curr amount) h.max) }

/-- `Health::heal_or_revive`: heals the actor or revives them if dead,
treating a dead actor as having 0 health; only acts when `amount > 0`. -/
def Health.heal_or_revive (h : Health) (amount : Nat) : Health :=
  if amount = 0 then h else
  { h with current := nzNew (min (satAdd (h.current.getD 0) amount) h.max) }

/-- `Health::damage`: subtracts with `u32` saturation; a result of zero
becomes `none` (dead). Zero amount or already dead is a no-op. -/
def Health.damage (h : Health) (amount : Nat) : Health :=
  if amount = 0 then h else
  match h.current with
  | none => h
  | some curr => { h with current := nzNew (curr - amount) }

/-- `Health::damage_no_kill`: like `damage` but a zero result is replaced
by 1, so the actor is never killed. -/
def Health.damage_no_kill (h : Health) (amount : Nat) : Health :=
  if amount = 0 then h else
  match h.current with
  | none => h
  | some curr => { h with current := some ((nzNew (curr - amount)).getD 1) }

/-- `Health::damage_endurence`: floors the result at 1 when the current
health was above 1, and kills outright when it was exactly 1. -/
def Health.damage_endurence (h : Health) (amount : Nat) : Health :=
  if amount = 0 then h else
  match h.current with
  | none => h
  | some curr =>
    { h with current :=
        if 1 < curr then some ((nzNew (curr - amount)).getD 1) else none }

/-- `Health::damage_no_one_shot`: floors the result at 1 when the actor
was at full health, and otherwise behaves like plain `damage`. -/
def Health.damage_no_one_shot (h : Health) (amount : Nat) : Health :=
  if amount = 0 then h else
  match h.current with
  | none => h
  | some curr =>
    { h with current :=
        if curr = h.max then some ((nzNew (curr - amount)).getD 1)
        else nzNew (curr - amount) }

/-- `Health::kill`: unconditionally sets dead. -/
def Health.kill (h : Health) : Health := { h with current := none }

theorem nzNew_getD_one (x : Nat) : (nzNew x).getD 1 = max x 1 := by
  unfold nzNew
  split <;> simp <;> omega

theorem heal_dead (h : Health) (a : Nat) (hc : h.current = none) :
    h.heal a = h := by
  unfold Health.heal
  rw [hc]
  split <;> rfl

theorem heal_zero (h : Health) : h.heal 0 = h := by
  unfold Health.heal
  simp

theorem heal_alive (h : Health) (c a : Nat) (hc : h.current = some c)
    (ha : a ≠ 0) :
    h.heal a = ⟨some (min (satAdd c a) h.max), h.max⟩ := by
  unfold Health.heal
  rw [hc, if_neg ha]

theorem heal_or_revive_zero (h : Health) : h.heal_or_revive 0 = h := by
  unfold Health.heal_or_revive
  simp

theorem heal_or_revive_pos (h : Health) (a : Nat) (ha : a ≠ 0) :
    h.heal_or_revive a =
      ⟨nzNew (min (satAdd (h.current.getD 0) a) h.max), h.max⟩ := by
  unfold Health.heal_or_revive
  rw [if_neg ha]

theorem damage_dead (h : Health) (a : Nat) (hc : h.current = none) :
    h.damage a = h := by
  unfold Health.damage
  rw [hc]
  split <;> rfl

theorem damage_zero (h : Health) : h.damage 0 = h := by
  unfold Health.damage
  simp

theorem damage_alive (h : Health) (c a : Nat) (hc : h.current = some c)
    (ha : a ≠ 0) : h.damage a = ⟨nzNew (c - a), h.max⟩ := by
  unfold Health.damage
  rw [hc, if_neg ha]

theorem damage_no_kill_dead (h : Health) (a : Nat) (hc : h.current = none) :
    h.damage_no_kill a = h := by
  unfold Health.damage_no_kill
  rw [hc]
  split <;> rfl

theorem damage_no_kill_zero (h : Health) : h.damage_no_kill 0 = h := by
  unfold Health.damage_no_kill
  simp

theorem damage_no_kill_alive (h : Health) (c a : Nat) (hc : h.current = some c)
    (ha : a ≠ 0) :
    h.damage_no_kill a = ⟨some ((nzNew (c - a)).getD 1), h.max⟩ := by
  unfold Health.damage_no_kill
  rw [hc, if_neg ha]

theorem damage_endurence_dead (h : Health) (a : Nat) (hc : h.current = none) :
    h.damage_endurence a = h := by
  unfold Health.damage_endurence
  rw [hc]
  split <;> rfl

theorem damage_endurence_zero (h : Health) : h.damage_endurence 0 = h := by
  unfold Health.damage_endurence
  simp

theorem damage_endurence_alive (h : Health) (c a : Nat)
    (hc : h.current = some c) (ha : a ≠ 0) :
    h.damage_endurence a =
      ⟨if 1 < c then some ((nzNew (c - a)).getD 1) else none, h.max⟩ := by
  unfold Health.damage_endurence
  rw [hc, if_neg ha]

theorem damage_no_one_shot_dead (h : Health) (a : Nat)
    (hc : h.current = none) : h.damage_no_one_shot a = h := by
  unfold Health.damage_no_one_shot
  rw [hc]
  split <;> rfl

theorem damage_no_one_shot_zero (h : Health) : h.damage_no_one_shot 0 = h := by
  unfold Health.damage_no_one_shot
  simp

theorem damage_no_one_shot_alive (h : Health) (c a : Nat)
    (hc : h.current = some c) (ha : a ≠ 0) :
    h.damage_no_one_shot a =
      ⟨if c = h.max then some ((nzNew (c - a)).getD 1) else nzNew (c - a),
       h.max⟩ := by
  unfold Health.damage_no_one_shot
  rw [hc, if_neg ha]

/-- One call to a mutating operation of `Health`. -/
inductive HOp where
  | heal (amount : Nat)
  | heal_or_revive (amount : Nat)
  | damage (amount : Nat)
  | damage_no_kill (amount : Nat)
  | damage_endurence (amount : Nat)
  | damage_no_one_shot (amount : Nat)
  | kill
deriving DecidableEq, Repr

/-- Apply one operation. -/
def applyOp (op : HOp) (h : Health) : Health :=
  match op with
  | .heal a => h.heal a
  | .heal_or_revive a => h.heal_or_revive a
  | .damage a => h.damage a
  | .damage_no_kill a => h.damage_no_kill a
  | .damage_endurence a => h.damage_endurence a
  | .damage_no_one_shot a => h.damage_no_one_shot a
  | .kill => h.kill

/-- Apply a sequence of operations, first element first. -/
def applyOps (ops : List HOp) (h : Health) : Health :=
  ops.foldl (fun h op => applyOp op h) h

/-- The representation invariant of `Health`: positive `max`, and the
current value, when present, strictly positive and at most `max`.
Positivity is enforced in Rust by the `NonZero<u32>` type; the bound is
the `debug_assert` after every mutation. -/
def Health.Wf (h : Health) : Prop :=
  0 < h.max ∧ ∀ c, h.current = some c → 0 < c ∧ c ≤ h.max

theorem wf_applyOp (op : HOp) (h : Health) (hw : h.Wf) : (applyOp op h).Wf := by
  obtain ⟨hmax, hcur⟩ := hw
  cases op with
  | heal a =>
    rcases Nat.eq_zero_or_pos a with ha | ha
    · subst ha; rw [applyOp, heal_zero]; exact ⟨hmax, hcur⟩
    cases hc : h.current with
    | none => rw [applyOp, heal_dead h a hc]; exact ⟨hmax, hcur⟩
    | some c =>
      rw [applyOp, heal_alive h c a hc (by omega)]
      obtain ⟨hpos, hle⟩ := hcur c hc
      refine ⟨hmax, fun c' hc' => ?_⟩
      dsimp only at hc' ⊢
      simp only [Option.some.injEq] at hc'
      subst hc'
      have : 0 < satAdd c a := by unfold satAdd U32_MAX; omega
      omega
  | heal_or_revive a =>
    rcases Nat.eq_zero_or_pos a with ha | ha
    · subst ha; rw [applyOp, heal_or_revive_zero]; exact ⟨hmax, hcur⟩
    rw [applyOp, heal_or_revive_pos h a (by omega)]
    refine ⟨hmax, fun c' hc' => ?_⟩
    dsimp only at hc' ⊢
    unfold nzNew at hc'
    split at hc'
    · exact absurd hc' (by simp)
    · rename_i hne
      simp only [Option.some.injEq] at hc'
      omega
  | damage a =>
    rcases Nat.eq_zero_or_pos a with ha | ha
    · subst ha; rw [applyOp, damage_zero]; exact ⟨hmax, hcur⟩
    cases hc : h.current with
    | none => rw [applyOp, damage_dead h a hc]; exact ⟨hmax, hcur⟩
    | some c =>
      rw [applyOp, damage_alive h c a hc (by omega)]
      obtain ⟨hpos, hle⟩ := hcur c hc
      refine ⟨hmax, fun c' hc' => ?_⟩
      dsimp only at hc' ⊢
      unfold nzNew at hc'
      split at hc'
      · exact absurd hc' (by simp)
      · rename_i hne
        simp only [Option.some.injEq] at hc'
        omega
  | damage_no_kill a =>
    rcases Nat.eq_zero_or_pos a with ha | ha
    · subst ha; rw [applyOp, damage_no_kill_zero]; exact ⟨hmax, hcur⟩
    cases hc : h.current with
    | none => rw [applyOp, damage_no_kill_dead h a hc]; exact ⟨hmax, hcur⟩
    | some c =>
      rw [applyOp, damage_no_kill_alive h c a hc (by omega)]
      obtain ⟨hpos, hle⟩ := hcur c hc
      refine ⟨hmax, fun c' hc' => ?_⟩
      dsimp only at hc' ⊢
      simp only [Option.some.injEq, nzNew_getD_one] at hc'
      omega
  | damage_endurence a =>
    rcases Nat.eq_zero_or_pos a with ha | ha
    · subst ha; rw [applyOp, damage_endurence_zero]; exact ⟨hmax, hcur⟩
    cases hc : h.current with
    | none => rw [applyOp, damage_endurence_dead h a hc]; exact ⟨hmax, hcur⟩
    | some c =>
      rw [applyOp, damage_endurence_alive h c a hc (by omega)]
      obtain ⟨hpos, hle⟩ := hcur c hc
      refine ⟨hmax, fun c' hc' => ?_⟩
      dsimp only at hc' ⊢
      split at hc'
      · simp only [Option.some.injEq, nzNew_getD_one] at hc'
        omega
      · exact absurd hc' (by simp)
  | damage_no_one_shot a =>
    rcases Nat.eq_zero_or_pos a with ha | ha
    · subst ha; rw [applyOp, damage_no_one_shot_zero]; exact ⟨hmax, hcur⟩
    cases hc : h.current with
    | none => rw [applyOp, damage_no_one_shot_dead h a hc]; exact ⟨hmax, hcur⟩
    | some c =>
      rw [applyOp, damage_no_one_shot_alive h c a hc (by omega)]
      obtain ⟨hpos, hle⟩ := hcur c hc
      refine ⟨hmax, fun c' hc' => ?_⟩
      dsimp only at hc' ⊢
      split at hc'
      · simp only [Option.some.injEq, nzNew_getD_one] at hc'
        omega
      · unfold nzNew at hc'
        split at hc'
        · exact absurd hc' (by simp)
        · rename_i hne
          simp only [Option.some.injEq] at hc'
          omega
  | kill =>
    exact ⟨hmax, fun c hc => by simp [applyOp, Health.kill] at hc⟩

theorem wf_applyOps (ops : List HOp) (h : Health) (hw : h.Wf) :
    (applyOps ops h).Wf := by
  induction ops generalizing h with
  | nil => exact hw
  | cons op ops ih =>
    exact ih (applyOp op h) (wf_applyOp op h hw)

/-- C1: starting from any well-formed `Health` value, after any sequence
of calls to `heal`, `heal_or_revive`, `damage`, `damage_no_kill`,
`damage_endurence`, `damage_no_one_shot` and `kill`, the current health,
whenever present, is strictly positive and at most `max`; and the
current value being absent is exactly the dead state
(`is_alive` is false iff `current = none`), so a "0 HP but alive" state
is never produced. -/
theorem health_invariant_preserved (h : Health) (hw : h.Wf) (ops : List HOp) :
    (∀ c, (applyOps ops h).current = some c →
      0 < c ∧ c ≤ (applyOps ops h).max) ∧
    ((applyOps ops h).is_alive = false ↔ (applyOps ops h).current = none) := by
  refine ⟨(wf_applyOps ops h hw).2, ?_⟩
  cases hc : (applyOps ops h).current <;> simp [Health.is_alive, hc]

/-- Witness for C1 at a concrete health value and operation sequence. -/
theorem health_invariant_preserved_witness :
    ((applyOps [HOp.damage 3, HOp.heal 20]
        (Health.with_current (some 5) 10)).is_alive = false ↔
      (applyOps [HOp.damage 3, HOp.heal 20]
        (Health.with_current (some 5) 10)).current = none) :=
  (health_invariant_preserved (Health.with_current (some 5) 10)
    ⟨by decide,
     fun c hc => by
       simp only [Health.with_current, Option.some.injEq] at hc
       subst hc
       decide⟩
    [HOp.damage 3, HOp.heal 20]).2

theorem applyOps_cons (op : HOp) (ops : List HOp) (h : Health) :
    applyOps (op :: ops) h = applyOps ops (applyOp op h) := rfl

/-- C6: `damage` kills exactly when the amount reaches the current
health, and otherwise subtracts; `damage_no_kill` never kills and yields
`max (c - amount) 1`; zero amount or dead actor is a no-op for both. -/
theorem damage_kill_boundary (h : Health) (c a : Nat) :
    (h.current = some c → 0 < c →
      ((c ≤ a → (h.damage a).current = none) ∧
       (a < c → (h.damage a).current = some (c - a)) ∧
       (h.damage_no_kill a).current = some (max (c - a) 1))) ∧
    (h.damage 0 = h ∧ h.damage_no_kill 0 = h) ∧
    (h.current = none → h.damage a = h ∧ h.damage_no_kill a = h) := by
  refine ⟨fun hc hpos => ⟨?_, ?_, ?_⟩, ⟨damage_zero h, damage_no_kill_zero h⟩,
    fun hd => ⟨damage_dead h a hd, damage_no_kill_dead h a hd⟩⟩
  · intro hca
    rw [damage_alive h c a hc (by omega)]
    dsimp only
    unfold nzNew
    rw [if_pos (by omega)]
  · intro hac
    by_cases ha : a = 0
    · subst ha
      rw [damage_zero, hc, Nat.sub_zero]
    · rw [damage_alive h c a hc ha]
      dsimp only
      unfold nzNew
      rw [if_neg (by omega)]
  · by_cases ha : a = 0
    · subst ha
      rw [damage_no_kill_zero, hc]
      simp only [Option.some.injEq]
      omega
    · rw [damage_no_kill_alive h c a hc ha]
      dsimp only
      rw [nzNew_getD_one]

/-- Witness for C6 at current 5, max 10, damage amount 7. -/
theorem damage_kill_boundary_witness :
    ((Health.with_current (some 5) 10).damage 7).current = none :=
  ((damage_kill_boundary (Health.with_current (some 5) 10) 5 7).1 rfl
    (by decide)).1 (by decide)

/-- C7: `damage_no_one_shot` floors at 1 exactly when the actor is at
full health, and otherwise coincides with plain `damage`; at
current = max = 10 a damage of 20 leaves 1, while at current 5 of max 10
a damage of 20 kills; zero amount or dead actor is a no-op. -/
theorem damage_no_one_shot_policy (h : Health) (c a : Nat) :
    (h.current = some c → 0 < c →
      ((c = h.max → (h.damage_no_one_shot a).current = some (max (c - a) 1)) ∧
       (c ≠ h.max → h.damage_no_one_shot a = h.damage a))) ∧
    ((Health.with_current (some 10) 10).damage_no_one_shot 20 =
        Health.with_current (some 1) 10) ∧
    ((Health.with_current (some 5) 10).damage_no_one_shot 20 =
        Health.with_current none 10) ∧
    h.damage_no_one_shot 0 = h ∧
    (h.current = none → h.damage_no_one_shot a = h) := by
  refine ⟨fun hc hpos => ⟨?_, ?_⟩, by decide, by decide,
    damage_no_one_shot_zero h, fun hd => damage_no_one_shot_dead h a hd⟩
  · intro hcm
    by_cases ha : a = 0
    · subst ha
      rw [damage_no_one_shot_zero, hc]
      simp only [Option.some.injEq]
      omega
    · rw [damage_no_one_shot_alive h c a hc ha]
      dsimp only
      rw [if_pos hcm, nzNew_getD_one]
  · intro hcm
    by_cases ha : a = 0
    · subst ha
      rw [damage_no_one_shot_zero, damage_zero]
    · rw [damage_no_one_shot_alive h c a hc ha, damage_alive h c a hc ha,
        if_neg hcm]

/-- Witness for C7 at a full-health actor, current = max = 10, damage 20. -/
theorem damage_no_one_shot_policy_witness :
    ((Health.with_current (some 10) 10).damage_no_one_shot 20).current =
      some (max (10 - 20) 1) :=
  ((damage_no_one_shot_policy (Health.with_current (some 10) 10) 10 20).1 rfl
    (by decide)).1 rfl

/-- C8: `damage_endurence` floors at 1 and never kills when the current
health is above 1; at current exactly 1 any positive amount kills; zero
amount or dead actor is a no-op; from 5/10: damaging 2 gives 3, then 5
gives 1, then 5 gives dead. -/
theorem damage_endurence_policy (h : Health) (c a : Nat) :
    (h.current = some c → 1 < c → 0 < a →
        (h.damage_endurence a).current = some (max (c - a) 1)) ∧
    (h.current = some 1 → 0 < a → (h.damage_endurence a).current = none) ∧
    h.damage_endurence 0 = h ∧
    (h.current = none → h.damage_endurence a = h) ∧
    ((Health.with_current (some 5) 10).damage_endurence 2 =
        Health.with_current (some 3) 10) ∧
    (((Health.with_current (some 5) 10).damage_endurence 2).damage_endurence 5 =
        Health.with_current (some 1) 10) ∧
    ((((Health.with_current (some 5) 10).damage_endurence 2).damage_endurence
        5).damage_endurence 5 = Health.with_current none 10) := by
  refine ⟨fun hc hcm ha => ?_, fun hc ha => ?_, damage_endurence_zero h,
    fun hd => damage_endurence_dead h a hd, by decide, by decide, by decide⟩
  · rw [damage_endurence_alive h c a hc (by omega)]
    dsimp only
    rw [if_pos hcm, nzNew_getD_one]
  · rw [damage_endurence_alive h 1 a hc (by omega)]
    dsimp only
    rw [if_neg (by omega)]

/-- Witness for C8 at current 5, max 10, damage amount 2. -/
theorem damage_endurence_policy_witness :
    ((Health.with_current (some 5) 10).damage_endurence 2).current =
      some (max (5 - 2) 1) :=
  (damage_endurence_policy (Health.with_current (some 5) 10) 5 2).1 rfl
    (by decide) (by decide)

/-- Whether the operation is the reviving one, `heal_or_revive`. -/
def HOp.isRevive : HOp → Bool
  | .heal_or_revive _ => true
  | _ => false

theorem applyOp_dead_of_not_revive (op : HOp) (h : Health)
    (hop : op.isRevive = false) (hd : h.current = none) :
    (applyOp op h).current = none := by
  cases op with
  | heal a => rw [applyOp, heal_dead h a hd]; exact hd
  | heal_or_revive a => simp [HOp.isRevive] at hop
  | damage a => rw [applyOp, damage_dead h a hd]; exact hd
  | damage_no_kill a => rw [applyOp, damage_no_kill_dead h a hd]; exact hd
  | damage_endurence a =>
    rw [applyOp, damage_endurence_dead h a hd]; exact hd
  | damage_no_one_shot a =>
    rw [applyOp, damage_no_one_shot_dead h a hd]; exact hd
  | kill => rfl

theorem applyOps_dead_of_not_revive (ops : List HOp) (h : Health)
    (hops : ∀ op ∈ ops, op.isRevive = false) (hd : h.current = none) :
    (applyOps ops h).current = none := by
  induction ops generalizing h with
  | nil => exact hd
  | cons op ops ih =>
    rw [applyOps_cons]
    exact ih (applyOp op h) (fun o ho => hops o (List.mem_cons_of_mem op ho))
      (applyOp_dead_of_not_revive op h (hops op (List.mem_cons_self op ops)) hd)

/-- C9: `heal` is a no-op on a dead actor and at amount 0, and on an
alive actor adds the amount saturating at `max`; `heal_or_revive 0`
leaves a dead actor dead while a positive amount revives it to
`min n max`; and no sequence avoiding `heal_or_revive` ever revives a
dead actor. -/
theorem heal_revive_policy (h : Health) (c n : Nat) :
    (h.current = none → h.heal n = h) ∧
    h.heal 0 = h ∧
    (h.current = some c → 0 < n → h.max ≤ U32_MAX →
        (h.heal n).current = some (min (c + n) h.max)) ∧
    h.heal_or_revive 0 = h ∧
    (h.current = none → 0 < n → 0 < h.max → h.max ≤ U32_MAX →
        (h.heal_or_revive n).current = some (min n h.max)) ∧
    (∀ ops : List HOp, (∀ op ∈ ops, op.isRevive = false) →
        h.current = none → (applyOps ops h).current = none) := by
  refine ⟨fun hd => heal_dead h n hd, heal_zero h, fun hc hn hm => ?_,
    heal_or_revive_zero h, fun hd hn hmax hm => ?_,
    fun ops hops hd => applyOps_dead_of_not_revive ops h hops hd⟩
  · rw [heal_alive h c n hc (by omega)]
    dsimp only
    simp only [Option.some.injEq]
    unfold satAdd U32_MAX at *
    omega
  · rw [heal_or_revive_pos h n (by omega)]
    dsimp only
    rw [hd]
    unfold nzNew satAdd U32_MAX at *
    rw [if_neg (by simp only [Option.getD]; omega)]
    simp only [Option.some.injEq, Option.getD]
    omega

/-- Witness for C9: revival of a dead actor with max 10 by healing 25. -/
theorem heal_revive_policy_witness :
    ((Health.with_current none 10).heal_or_revive 25).current =
      some (min 25 10) :=
  (heal_revive_policy (Health.with_current none 10) 0 25).2.2.2.2.1 rfl
    (by decide) (by decide) (by decide)

/-- A deterministic RNG stream: an infinite sequence of raw draws and a
position in it. Models the `rand::Rng` stream the combat consumes. -/
structure Rng where
  seq : Nat → Nat
  pos : Nat

/-- Draw one raw value and advance the stream. -/
def Rng.next (r : Rng) : Nat × Rng := (r.seq r.pos, ⟨r.seq, r.pos + 1⟩)

/-- `rng.random_bool(p)`: one Bernoulli draw with probability `p`,
modelled by comparing one raw draw reduced to the `u32` range against
`p` scaled by `2 ^ 32` (as the integer cross-multiplied inequality);
always true at `p = 1` and always false at `p = 0`. -/
def randomBool (p : ℚ) (r : Rng) : Bool × Rng :=
  (decide (((r.next.1 % 2 ^ 32 : Nat) : ℤ) * p.den < p.num * 2 ^ 32),
   r.next.2)

/-- `rng.random_range(lo..hi)`: one uniform draw from `[lo, hi)`;
`none` models the panic on an empty range. -/
def randomRangeNat (lo hi : Nat) (r : Rng) : Option (Nat × Rng) :=
  if lo < hi then some (lo + r.next.1 % (hi - lo), r.next.2) else none

/-- An attack profile (`Attack` in `src/actor/attack.rs`): damage range
`[damage_start, damage_end)` and hit probability. -/
structure Attack where
  damage_start : Nat
  damage_end : Nat
  hit_chance : ℚ

/-- The outcome of an attack (`AttackDamage`); zero-damage rolls are
reclassified as `Miss` before this value is built. -/
inductive AttackDamage where
  | Hit (damage : Nat)
  | Miss
deriving DecidableEq, Repr

/-- `Attack::conduct`: draw the hit Bernoulli; on failure `Miss`.
On success draw the damage from the range; a zero roll becomes `Miss`
(the `and_then(NonZero::new)` step), otherwise `Hit`. `none` models the
panic of `random_range` on an empty damage range. -/
def Attack.conduct (a : Attack) (r : Rng) : Option (AttackDamage × Rng) :=
  let hr := randomBool a.hit_chance r
  if hr.1 then
    match randomRangeNat a.damage_start a.damage_end hr.2 with
    | none => none
    | some dr =>
      some ((if dr.1 = 0 then AttackDamage.Miss else AttackDamage.Hit dr.1),
        dr.2)
  else some (AttackDamage.Miss, hr.2)

/-- C5: for every profile and RNG state, a failed hit draw returns
`Miss` after exactly that one draw, and every `Hit d` that `conduct`
returns satisfies `damage_start ≤ d < damage_end` and `0 < d`; in
particular `Hit 0` is never produced. -/
theorem conduct_hit_bounds (a : Attack) (r : Rng) :
    ((randomBool a.hit_chance r).1 = false →
      a.conduct r = some (AttackDamage.Miss, (randomBool a.hit_chance r).2)) ∧
    (∀ d r', a.conduct r = some (AttackDamage.Hit d, r') →
      a.damage_start ≤ d ∧ d < a.damage_end ∧ 0 < d) := by
  constructor
  · intro hmiss
    unfold Attack.conduct
    dsimp only
    rw [hmiss]
    simp
  · intro d r' hconduct
    unfold Attack.conduct at hconduct
    dsimp only at hconduct
    cases hb : (randomBool a.hit_chance r).1 with
    | false =>
      rw [hb] at hconduct
      simp at hconduct
    | true =>
      rw [hb] at hconduct
      rw [if_pos rfl] at hconduct
      by_cases hlt : a.damage_start < a.damage_end
      · have hrr : randomRangeNat a.damage_start a.damage_end
            (randomBool a.hit_chance r).2 =
            some (a.damage_start + (randomBool a.hit_chance r).2.next.1 %
              (a.damage_end - a.damage_start),
              (randomBool a.hit_chance r).2.next.2) := by
          unfold randomRangeNat
          rw [if_pos hlt]
        rw [hrr] at hconduct
        dsimp only at hconduct
        by_cases h0 : a.damage_start + (randomBool a.hit_chance r).2.next.1 %
            (a.damage_end - a.damage_start) = 0
        · rw [if_pos h0] at hconduct
          simp at hconduct
        · rw [if_neg h0] at hconduct
          simp only [Option.some.injEq, Prod.mk.injEq,
            AttackDamage.Hit.injEq] at hconduct
          obtain ⟨hd, -⟩ := hconduct
          subst hd
          refine ⟨by omega, ?_, by omega⟩
          have := Nat.mod_lt ((randomBool a.hit_chance r).2.next.1)
            (show 0 < a.damage_end - a.damage_start by omega)
          omega
      · have hrr : randomRangeNat a.damage_start a.damage_end
            (randomBool a.hit_chance r).2 = none := by
          unfold randomRangeNat
          rw [if_neg hlt]
        rw [hrr] at hconduct
        simp at hconduct

/-- Witness for C5: a guaranteed miss at hit chance 0 on a concrete
stream. -/
theorem conduct_hit_bounds_witness :
    Attack.conduct ⟨10, 20, 0⟩ ⟨fun _ => 7, 0⟩ =
      some (AttackDamage.Miss, (randomBool 0 ⟨fun _ => 7, 0⟩).2) :=
  (conduct_hit_bounds ⟨10, 20, 0⟩ ⟨fun _ => 7, 0⟩).1 (by decide)

/-- Combat team (`Team` in `src/actor/mod.rs`). -/
inductive Team where
  | Player
  | Enemy
deriving DecidableEq, Repr

/-- Which teams still have a living member (`TeamAlive`). -/
inductive TeamAlive where
  | Both
  | Player
  | Enemy
  | Neither
deriving DecidableEq, Repr

/-- `TeamAlive::found`: fold step recording one living actor's team. -/
def TeamAlive.found (s : TeamAlive) (team : Team) : TeamAlive :=
  match team, s with
  | _, .Both => .Both
  | .Player, .Player => .Player
  | .Enemy, .Enemy => .Enemy
  | .Enemy, .Player => .Both
  | .Player, .Enemy => .Both
  | .Player, .Neither => .Player
  | .Enemy, .Neither => .Enemy

/-- The combat queue (`TurnOrder` in `src/game/combat.rs`); entities are
numbered by `Nat`. The ECS queries for speed, health and team become
explicit functions on entities. -/
structure TurnOrder where
  queue : List Nat
deriving DecidableEq, Repr

/-- The ascending-speed comparison `sort_by_cached_key` sorts with. -/
def speedLE (speed : Nat → Nat) (a b : Nat) : Bool :=
  decide (speed a ≤ speed b)

/-- `TurnOrder::new`: collect the roster and sort it ascending by speed
with a stable sort (`sort_by_cached_key`). -/
def TurnOrder.new (roster : List Nat) (speed : Nat → Nat) : TurnOrder :=
  ⟨roster.mergeSort (speedLE speed)⟩

/-- `TurnOrder::active`: the back (tail) of the queue. -/
def TurnOrder.active? (t : TurnOrder) : Option Nat := t.queue.getLast?

/-- `TurnOrder::skip_to_next`: scan backward from the tail, skipping the
tail itself, for the closest living actor; rotate the queue right so it
becomes the new tail. `none` models the `unwrap` panic when no living
actor other than the tail exists. -/
def TurnOrder.skip_to_next (t : TurnOrder) (alive : Nat → Bool) :
    Option TurnOrder :=
  match (t.queue.reverse.drop 1).findIdx? alive with
  | none => none
  | some i => some ⟨t.queue.rotateRight (i + 1)⟩

/-- `TurnOrder::teams_alive`: fold the teams of the living queue members. -/
def TurnOrder.teams_alive (t : TurnOrder) (alive : Nat → Bool)
    (team : Nat → Team) : TeamAlive :=
  ((t.queue.filter alive).map team).foldl TeamAlive.found TeamAlive.Neither

theorem turnOrder_new_active_max (roster : List Nat) (speed : Nat → Nat)
    (hr : roster ≠ []) :
    ∃ a, (TurnOrder.new roster speed).active? = some a ∧
      ∀ e ∈ roster, speed e ≤ speed a := by
  have htrans : ∀ a b c : Nat, speedLE speed a b → speedLE speed b c →
      speedLE speed a c := by
    intro a b c hab hbc
    simp only [speedLE, decide_eq_true_eq] at *
    omega
  have htotal : ∀ a b : Nat, speedLE speed a b || speedLE speed b a := by
    intro a b
    simp only [speedLE, Bool.or_eq_true, decide_eq_true_eq]
    omega
  have hperm : (roster.mergeSort (speedLE speed)).Perm roster :=
    List.mergeSort_perm roster _
  have hsort := List.sorted_mergeSort htrans htotal roster
  have hLne : roster.mergeSort (speedLE speed) ≠ [] := by
    intro h
    exact hr ((h ▸ hperm).symm.eq_nil)
  have hlen : 0 < (roster.mergeSort (speedLE speed)).length :=
    List.length_pos.mpr hLne
  refine ⟨(roster.mergeSort (speedLE speed)).getLast hLne, ?_, ?_⟩
  · exact List.getLast?_eq_getLast _ hLne
  · intro e he
    obtain ⟨i, hi, hie⟩ := List.mem_iff_getElem.mp (hperm.mem_iff.mpr he)
    rw [List.getLast_eq_getElem]
    rcases Nat.lt_or_ge i ((roster.mergeSort (speedLE speed)).length - 1)
      with hlt | hge
    · have := (List.pairwise_iff_getElem.mp hsort) i
        ((roster.mergeSort (speedLE speed)).length - 1) hi (by omega) hlt
      simp only [speedLE, decide_eq_true_eq] at this
      rwa [hie] at this
    · have hieq : i = (roster.mergeSort (speedLE speed)).length - 1 := by
        omega
      subst hieq
      rw [hie]

theorem skip_to_next_spec (q : List Nat) (alive : Nat → Bool)
    (t' : TurnOrder) (h : TurnOrder.skip_to_next ⟨q⟩ alive = some t') :
    t'.queue.Perm q ∧ (∃ n, t'.queue = q.rotateRight n) ∧
    ∃ a, t'.active? = some a ∧ alive a = true := by
  unfold TurnOrder.skip_to_next at h
  cases hf : (q.reverse.drop 1).findIdx? alive with
  | none => rw [hf] at h; exact absurd h (by simp)
  | some i =>
    rw [hf] at h
    simp only [Option.some.injEq] at h
    subst h
    obtain ⟨hilt, hidx⟩ := List.findIdx?_eq_some_iff_findIdx_eq.mp hf
    have hlen1 : (q.reverse.drop 1).length = q.length - 1 := by
      rw [List.length_drop, List.length_reverse]
    have hL2 : 2 ≤ q.length := by omega
    have halive : alive ((q.reverse.drop 1).get ⟨i, hilt⟩) = true := by
      have hw : (q.reverse.drop 1).findIdx alive <
          (q.reverse.drop 1).length := by omega
      have := @List.findIdx_getElem Nat alive (q.reverse.drop 1) hw
      simpa only [hidx, List.get_eq_getElem] using this
    have hxval : q[q.length - i - 2]? =
        some ((q.reverse.drop 1).get ⟨i, hilt⟩) := by
      have hx : (q.reverse.drop 1)[i]? = q[q.length - i - 2]? := by
        rw [List.getElem?_drop, List.getElem?_reverse (by omega)]
        congr 1
        omega
      rw [← hx]
      simp only [List.get_eq_getElem]
      exact List.getElem?_eq_getElem hilt
    have hrot : q.rotateRight (i + 1) =
        q.drop (q.length - (i + 1)) ++ q.take (q.length - (i + 1)) := by
      unfold List.rotateRight
      rw [if_neg (by omega)]
      have hmod : (i + 1) % q.length = i + 1 := Nat.mod_eq_of_lt (by omega)
      rw [hmod]
    refine ⟨?_, ⟨i + 1, rfl⟩, ?_⟩
    · rw [hrot]
      have hper : (q.drop (q.length - (i + 1)) ++
          q.take (q.length - (i + 1))).Perm
          (q.take (q.length - (i + 1)) ++ q.drop (q.length - (i + 1))) :=
        List.perm_append_comm
      rw [List.take_append_drop] at hper
      exact hper
    · refine ⟨(q.reverse.drop 1).get ⟨i, hilt⟩, ?_, halive⟩
      show (q.rotateRight (i + 1)).getLast? = _
      rw [hrot, List.getLast?_append]
      have hlt : (q.take (q.length - (i + 1))).length =
          q.length - (i + 1) := by
        rw [List.length_take]
        omega
      have hidx2 : q.length - (i + 1) - 1 = q.length - i - 2 := by omega
      have htne : (q.take (q.length - (i + 1))).getLast? =
          some ((q.reverse.drop 1).get ⟨i, hilt⟩) := by
        rw [List.getLast?_eq_getElem?, List.getElem?_take, hlt,
          if_pos (by omega), hidx2, hxval]
      rw [htne]
      rfl

/-- C2: `TurnOrder::new` sorts the roster ascending by speed so that the
tail returned by `active` has maximal speed; a successful `skip_to_next`
yields a rotation of the queue (same actors, same cyclic order, nobody
removed) whose new tail is alive; and on the concrete speeds 4, 2, 6
(entities 0, 1, 2) the speed-6 actor is initially active, and after it
dies with the others alive, `skip_to_next` makes the speed-4 actor
active. -/
theorem turn_order_schedule (roster : List Nat) (speed : Nat → Nat)
    (q : List Nat) (alive : Nat → Bool) (t' : TurnOrder) :
    (roster ≠ [] → ∃ a, (TurnOrder.new roster speed).active? = some a ∧
      ∀ e ∈ roster, speed e ≤ speed a) ∧
    (TurnOrder.skip_to_next ⟨q⟩ alive = some t' →
      t'.queue.Perm q ∧ (∃ n, t'.queue = q.rotateRight n) ∧
      ∃ a, t'.active? = some a ∧ alive a = true) ∧
    ((TurnOrder.new [0, 1, 2] (fun e => [4, 2, 6].getD e 0)).queue =
        [1, 0, 2] ∧
     (TurnOrder.new [0, 1, 2] (fun e => [4, 2, 6].getD e 0)).active? =
        some 2 ∧
     (TurnOrder.new [0, 1, 2] (fun e => [4, 2, 6].getD e 0)).skip_to_next
        (fun e => decide (e ≠ 2)) = some ⟨[2, 1, 0]⟩ ∧
     (TurnOrder.mk [2, 1, 0]).active? = some 0) := by
  refine ⟨turnOrder_new_active_max roster speed,
    skip_to_next_spec q alive t', ?_⟩
  have hnew : TurnOrder.new [0, 1, 2] (fun e => [4, 2, 6].getD e 0) =
      ⟨[1, 0, 2]⟩ := by
    unfold TurnOrder.new
    congr 1
    simp [speedLE, List.mergeSort, List.splitInTwo, List.merge]
  refine ⟨by rw [hnew], by rw [hnew]; rfl, by rw [hnew]; decide, by decide⟩

/-- Witness for C2 at the concrete roster 0, 1, 2 with speeds 4, 2, 6
and the speed-6 actor dead. -/
theorem turn_order_schedule_witness :
    (TurnOrder.mk [2, 1, 0]).queue.Perm [1, 0, 2] ∧
    (∃ n, (TurnOrder.mk [2, 1, 0]).queue = [1, 0, 2].rotateRight n) ∧
    ∃ a, (TurnOrder.mk [2, 1, 0]).active? = some a ∧
      (fun (e : Nat) => decide (e ≠ 2)) a = true :=
  (turn_order_schedule [0] (fun _ => 0) [1, 0, 2]
    (fun e => decide (e ≠ 2)) ⟨[2, 1, 0]⟩).2.1 (by decide)

/-- Actor kinds (`ActorName` in `src/actor/mod.rs`); `Theif` is the
rogue kind, `Priestess` the healer kind. -/
inductive ActorName where
  | Warrior
  | Priestess
  | Theif
  | Goblin
  | Ogre
  | Skeleton
  | UnknownJim
deriving DecidableEq, Repr

/-- The action taken by the acting actor (`Action` in
`src/game/combat.rs`). -/
inductive Action where
  | Attack (target : Nat)
  | SpecialAction (target : Nat)
  | UseItem (target : Nat)
  | SkipTurn
deriving DecidableEq, Repr

/-- `matches!(action, Action::SpecialAction { .. })`. -/
def Action.isSpecial : Action → Bool
  | .SpecialAction _ => true
  | _ => false

/-- `choose_action` (the `MonsterAttack` system): collect the living
actors whose team differs from the acting actor's team, pick one
uniformly at random and record a plain `Attack` on it. `none` models the
`random_range(0..0)` panic when no target exists. -/
def choose_action (t : TurnOrder) (alive : Nat → Bool) (team : Nat → Team)
    (actingTeam : Team) (r : Rng) : Option (Action × Rng) :=
  let targets := t.queue.filter
    (fun e => alive e && decide (team e ≠ actingTeam))
  match randomRangeNat 0 targets.length r with
  | none => none
  | some ir => some (Action.Attack (targets.getD ir.1 0), ir.2)

/-- What the `teams_alive` match at the end of `end_turn` drives the
game to: both alive loops to `TurnSetup`, only the player team alive is
victory (exit to `Navigation`), otherwise `GameOver`. -/
inductive CombatCont where
  | TurnSetup
  | Victory
  | GameOver
deriving DecidableEq, Repr

/-- The `match queue.teams_alive(..)` arms of `end_turn`. -/
def combatCont : TeamAlive → CombatCont
  | .Both => .TurnSetup
  | .Player => .Victory
  | .Enemy => .GameOver
  | .Neither => .GameOver

/-- `end_turn`: unless the acting actor is the rogue kind (`Theif`) and
its recorded action was a `SpecialAction`, the acting marker is removed
and the queue advances with `skip_to_next`; then the teams-alive state
decides how combat continues. The returned `Bool` is whether the acting
marker is still present; `none` models the `skip_to_next` panic. -/
def end_turn (t : TurnOrder) (alive : Nat → Bool) (team : Nat → Team)
    (name : ActorName) (action : Action) :
    Option (Bool × TurnOrder × CombatCont) :=
  if name = ActorName.Theif ∧ action.isSpecial = true then
    some (true, t, combatCont (t.teams_alive alive team))
  else
    match t.skip_to_next alive with
    | none => none
    | some t2 => some (false, t2, combatCont (t2.teams_alive alive team))

/-- The `Action::Attack` arm of `perform_action`: conduct the attack;
on a hit, roll the target's block chance and, if not blocked, apply
`damage` to the target's health. `none` models a `conduct` panic. -/
def perform_attack (atk : Attack) (target : Nat) (healths : Nat → Health)
    (block_chance : Nat → ℚ) (r : Rng) : Option ((Nat → Health) × Rng) :=
  match atk.conduct r with
  | none => none
  | some (AttackDamage.Miss, r1) => some (healths, r1)
  | some (AttackDamage.Hit d, r1) =>
    let br := randomBool (block_chance target) r1
    if br.1 then some (healths, br.2)
    else some (fun e => if e = target then (healths target).damage d
      else healths e, br.2)

/-- C4: in `end_turn`, exactly when the acting actor's kind is the rogue
(`Theif`) and the recorded action is a `SpecialAction`, the acting
marker is kept (`true`) and the queue is untouched, so the active actor
is unchanged; in every other case the marker is cleared (`false`) and
the queue is advanced by `skip_to_next`. -/
theorem end_turn_rogue_bonus (t : TurnOrder) (alive : Nat → Bool)
    (team : Nat → Team) (name : ActorName) (action : Action) :
    (name = ActorName.Theif ∧ action.isSpecial = true →
      end_turn t alive team name action =
        some (true, t, combatCont (t.teams_alive alive team))) ∧
    (¬(name = ActorName.Theif ∧ action.isSpecial = true) →
      end_turn t alive team name action =
        (t.skip_to_next alive).map (fun t2 =>
          (false, t2, combatCont (t2.teams_alive alive team)))) := by
  constructor
  · intro hcond
    unfold end_turn
    rw [if_pos hcond]
  · intro hcond
    unfold end_turn
    rw [if_neg hcond]
    cases t.skip_to_next alive <;> rfl

/-- Witness for C4: a rogue taking its special action keeps the turn on
a concrete two-actor queue. -/
theorem end_turn_rogue_bonus_witness :
    end_turn ⟨[0, 1]⟩ (fun _ => true) (fun e => if e = 0 then Team.Player
      else Team.Enemy) ActorName.Theif (Action.SpecialAction 0) =
      some (true, ⟨[0, 1]⟩, combatCont ((TurnOrder.mk [0, 1]).teams_alive
        (fun _ => true) (fun e => if e = 0 then Team.Player
          else Team.Enemy))) :=
  (end_turn_rogue_bonus ⟨[0, 1]⟩ (fun _ => true)
    (fun e => if e = 0 then Team.Player else Team.Enemy)
    ActorName.Theif (Action.SpecialAction 0)).1 ⟨rfl, rfl⟩

/-- C10 counterexample: an Enemy-team healer (`Priestess`) acting with a
wounded living teammate (entity 2, at 10 of 200) nevertheless gets a
plain `Attack` on the Player-team actor 0 — `choose_action` applies no
per-kind override at all (it does not even consult the actor's kind),
so the healer does not target its own team's most-wounded member. -/
theorem choose_action_no_healer_override :
    ((choose_action ⟨[0, 1, 2]⟩ (fun _ => true)
        (fun e => if e = 0 then Team.Player else Team.Enemy) Team.Enemy
        ⟨fun _ => 0, 0⟩).map Prod.fst = some (Action.Attack 0)) ∧
    (if (0 : Nat) = 0 then Team.Player else Team.Enemy) ≠ Team.Enemy := by
  constructor
  · rfl
  · decide

/-- C10 (amended): whenever the acting actor is on the Enemy team and a
living opposing actor exists, `choose_action` returns a plain `Attack`
on a living member of the opposite team chosen uniformly at random from
the queue — with no per-kind override. -/
theorem choose_action_uniform_enemy_target (t : TurnOrder)
    (alive : Nat → Bool) (team : Nat → Team) (actingTeam : Team) (r : Rng)
    (hne : t.queue.filter
      (fun e => alive e && decide (team e ≠ actingTeam)) ≠ []) :
    ∃ tgt r2, choose_action t alive team actingTeam r =
      some (Action.Attack tgt, r2) ∧
      tgt ∈ t.queue ∧ alive tgt = true ∧ team tgt ≠ actingTeam := by
  have hlen : 0 < (t.queue.filter
      (fun e => alive e && decide (team e ≠ actingTeam))).length :=
    List.length_pos.mpr hne
  have hidx : r.next.1 % (t.queue.filter
      (fun e => alive e && decide (team e ≠ actingTeam))).length <
      (t.queue.filter
        (fun e => alive e && decide (team e ≠ actingTeam))).length :=
    Nat.mod_lt _ hlen
  have hget : (t.queue.filter
      (fun e => alive e && decide (team e ≠ actingTeam))).getD
      (0 + r.next.1 % (t.queue.filter
        (fun e => alive e && decide (team e ≠ actingTeam))).length) 0 =
      (t.queue.filter
        (fun e => alive e && decide (team e ≠ actingTeam))).get
        ⟨r.next.1 % (t.queue.filter
          (fun e => alive e && decide (team e ≠ actingTeam))).length,
         hidx⟩ := by
    rw [List.getD_eq_getElem?_getD, Nat.zero_add,
      List.getElem?_eq_getElem hidx]
    simp only [List.get_eq_getElem, Option.getD_some]
  have hmem := List.get_mem (t.queue.filter
      (fun e => alive e && decide (team e ≠ actingTeam)))
      (r.next.1 % (t.queue.filter
        (fun e => alive e && decide (team e ≠ actingTeam))).length) hidx
  obtain ⟨hmemq, hcond⟩ := List.mem_filter.mp hmem
  rw [Bool.and_eq_true, decide_eq_true_eq] at hcond
  refine ⟨_, r.next.2, ?_, hmemq, hcond.1, hcond.2⟩
  unfold choose_action
  dsimp only
  unfold randomRangeNat
  rw [if_pos hlen]
  dsimp only
  simp only [Nat.sub_zero]
  rw [hget]

/-- Witness for C10's amended theorem, on the counterexample's input. -/
theorem choose_action_uniform_enemy_target_witness :
    ∃ tgt r2, choose_action ⟨[0, 1, 2]⟩ (fun _ => true)
      (fun e => if e = 0 then Team.Player else Team.Enemy) Team.Enemy
      ⟨fun _ => 0, 0⟩ = some (Action.Attack tgt, r2) ∧
      tgt ∈ (TurnOrder.mk [0, 1, 2]).queue ∧ (fun (_ : Nat) => true) tgt = true ∧
      (if tgt = 0 then Team.Player else Team.Enemy) ≠ Team.Enemy :=
  choose_action_uniform_enemy_target ⟨[0, 1, 2]⟩ (fun _ => true)
    (fun e => if e = 0 then Team.Player else Team.Enemy) Team.Enemy
    ⟨fun _ => 0, 0⟩ (by decide)

theorem randomBool_one (r : Rng) : randomBool 1 r = (true, r.next.2) := by
  have hmod : r.next.1 % 2 ^ 32 < 2 ^ 32 := Nat.mod_lt _ (by norm_num)
  have hlt : ((r.next.1 % 2 ^ 32 : Nat) : ℤ) * ((1 : ℚ).den : ℤ) <
      (1 : ℚ).num * 2 ^ 32 := by
    rw [Rat.num_one, Rat.den_one]
    push_cast
    omega
  unfold randomBool
  rw [decide_eq_true hlt]

theorem randomBool_zero (r : Rng) : randomBool 0 r = (false, r.next.2) := by
  have hge : ¬(((r.next.1 % 2 ^ 32 : Nat) : ℤ) * ((0 : ℚ).den : ℤ) <
      (0 : ℚ).num * 2 ^ 32) := by
    rw [Rat.num_zero, Rat.den_zero]
    push_cast
    omega
  unfold randomBool
  rw [decide_eq_false hge]

/-- The attack profile of the C3 scenario: damage range `[10, 20)`,
hit chance 1. With a certain hit and a nonempty range, `conduct` always
lands `Hit (10 + v % 10)` for the next raw draw `v`. -/
theorem conduct_sure_hit (r : Rng) :
    Attack.conduct ⟨10, 20, 1⟩ r =
      some (AttackDamage.Hit (10 + r.next.2.next.1 % 10),
        r.next.2.next.2) := by
  unfold Attack.conduct
  dsimp only
  rw [randomBool_one]
  dsimp only
  rw [if_pos rfl]
  unfold randomRangeNat
  rw [if_pos (by norm_num)]
  dsimp only
  norm_num

theorem perform_attack_hit (a : Attack) (target : Nat) (hs : Nat → Health)
    (bc : Nat → ℚ) (r r1 : Rng) (d : Nat)
    (hc : a.conduct r = some (AttackDamage.Hit d, r1))
    (hb : randomBool (bc target) r1 = (false, r1.next.2)) :
    perform_attack a target hs bc r =
      some (fun e => if e = target then (hs target).damage d else hs e,
        r1.next.2) := by
  unfold perform_attack
  rw [hc]
  dsimp only
  rw [hb]
  dsimp only
  rw [if_neg (by simp)]

/-- Health of the two C3 scenario actors: the Player actor 0 at 100 of
100, the Enemy actor 1 at 1 of 1. -/
def scenarioHealths : Nat → Health := fun e =>
  if e = 0 then ⟨some 100, 100⟩ else ⟨some 1, 1⟩

/-- Teams of the two C3 scenario actors. -/
def scenarioTeam : Nat → Team := fun e =>
  if e = 0 then Team.Player else Team.Enemy

/-- Speeds of the two C3 scenario actors: 5 versus 1. -/
def scenarioSpeed : Nat → Nat := fun e => if e = 0 then 5 else 1

/-- C3 (the scenario as specified cannot finish — the code panics):
with the Allied speed-5 actor (100/100, damage 10 to 19, hit chance 1,
block 0) against the Opposing speed-1 actor (1/1, block 0), the Allied
actor is active first and its attack always hits for at least 10 and
kills the Opposing actor; but the following `end_turn` then calls
`skip_to_next` before checking `teams_alive`, and with no living actor
other than the acting one `skip_to_next` hits its `unwrap` panic
(modelled as `none`), so combat never reaches the victory branch. -/
theorem two_actor_scenario_panics :
    (TurnOrder.new [0, 1] scenarioSpeed).queue = [1, 0] ∧
    (TurnOrder.new [0, 1] scenarioSpeed).active? = some 0 ∧
    scenarioTeam 0 = Team.Player ∧
    ∀ r : Rng, ∃ d h2,
      Attack.conduct ⟨10, 20, 1⟩ r =
        some (AttackDamage.Hit d, r.next.2.next.2) ∧
      10 ≤ d ∧ d < 20 ∧
      perform_attack ⟨10, 20, 1⟩ 1 scenarioHealths (fun _ => 0) r =
        some (h2, r.next.2.next.2.next.2) ∧
      (h2 1).current = none ∧ h2 0 = scenarioHealths 0 ∧
      TurnOrder.skip_to_next ⟨[1, 0]⟩ (fun e => (h2 e).is_alive) = none ∧
      end_turn ⟨[1, 0]⟩ (fun e => (h2 e).is_alive) scenarioTeam
        ActorName.Warrior (Action.Attack 1) = none := by
  have hnew : TurnOrder.new [0, 1] scenarioSpeed = ⟨[1, 0]⟩ := by
    unfold TurnOrder.new
    congr 1
    simp [speedLE, scenarioSpeed, List.mergeSort, List.splitInTwo,
      List.merge]
  refine ⟨by rw [hnew], by rw [hnew]; rfl, rfl, ?_⟩
  intro r
  have hd10 : (10 : Nat) ≤ 10 + r.next.2.next.1 % 10 := by omega
  have hd20 : 10 + r.next.2.next.1 % 10 < 20 := by
    have := Nat.mod_lt (r.next.2.next.1) (show 0 < 10 by norm_num)
    omega
  have hh1 : (scenarioHealths 1).damage (10 + r.next.2.next.1 % 10) =
      ⟨none, 1⟩ := by
    rw [show scenarioHealths 1 = ⟨some 1, 1⟩ from rfl,
      damage_alive ⟨some 1, 1⟩ 1 (10 + r.next.2.next.1 % 10) rfl (by omega)]
    unfold nzNew
    rw [if_pos (by omega)]
  have hskip : TurnOrder.skip_to_next ⟨[1, 0]⟩
      (fun e => ((if e = 1 then (scenarioHealths 1).damage
        (10 + r.next.2.next.1 % 10) else scenarioHealths e)).is_alive) =
      none := by
    unfold TurnOrder.skip_to_next
    dsimp only
    rw [show (([1, 0] : List Nat).reverse.drop 1) = [1] from rfl]
    simp [List.findIdx?_cons, List.findIdx?_nil, hh1, Health.is_alive]
  refine ⟨10 + r.next.2.next.1 % 10,
    fun e => if e = 1 then (scenarioHealths 1).damage
      (10 + r.next.2.next.1 % 10) else scenarioHealths e,
    conduct_sure_hit r, hd10, hd20, ?_, ?_, rfl, hskip, ?_⟩
  · exact perform_attack_hit ⟨10, 20, 1⟩ 1 scenarioHealths (fun _ => 0)
      r r.next.2.next.2 (10 + r.next.2.next.1 % 10) (conduct_sure_hit r)
      (randomBool_zero r.next.2.next.2)
  · show ((if (1 : Nat) = 1 then (scenarioHealths 1).damage
      (10 + r.next.2.next.1 % 10) else scenarioHealths 1)).current = none
    rw [if_pos rfl, hh1]
  · show end_turn ⟨[1, 0]⟩ (fun e => ((if e = 1 then
      (scenarioHealths 1).damage (10 + r.next.2.next.1 % 10)
      else scenarioHealths e)).is_alive) scenarioTeam
      ActorName.Warrior (Action.Attack 1) = none
    unfold end_turn
    rw [if_neg (by simp)]
    rw [hskip]

end HexGame
